import Mathlib

/-!
Verification of the decode-and-reconstruct pipeline of the Image-To-DepthWebViewer
repository (`webapp/src/geometry.js`), as a shallow embedding in Lean 4.

Modelling conventions:
* JavaScript numbers are IEEE doubles; the arithmetic the claims are about is
  modelled exactly, over `ℚ` where the source only performs field operations and
  integer/bit manipulation, and over `ℝ` where the source uses `Math.sqrt`,
  `Math.exp`, `Math.log`, `Math.pow`, `Math.tan` or `Math.atan`.
* `Float32Array` / `Uint8ClampedArray` / `Uint32Array` buffers are modelled as
  `List` values; an in-place rewrite of a buffer is modelled as producing the
  list of values the loop writes.
* JavaScript bitwise operators work on 32-bit integers: `x | 0`-style
  conversion to a signed 32-bit value is `jsToInt32`, `>>> 0` is `jsToUint32`.
* `Math.round x` is `⌊x + 1/2⌋` (JavaScript rounds half-up); the source's
  `Math.round (Math.sqrt x)` is modelled as the exact half-up rounding of the
  real square root (`jsRoundSqrt`), which is computable on `ℚ` via `Nat.sqrt`.
-/

namespace Geometry

/-! ### Constants from the head of geometry.js -/

def TARGET_MESH : ℕ := 250000
def MESH_DIFF : ℕ := 2000
def MIN_DEPTH_CLAMP : ℝ := 0.15
def OFFSET : ℝ := 0.3
def CENTER_Z_MIN : ℝ := -4.0
def CENTER_Z_MAX : ℝ := -0.25
noncomputable def MIN_FOV_Y : ℝ := (30 * Real.pi) / 180
noncomputable def MAX_FOV_Y : ℝ := (110 * Real.pi) / 180
def DEPTH_SPIKE_THRESHOLD : ℝ := 0.45
def DEPTH_STABLE_TOLERANCE : ℝ := 0.12
def COLOR_EDGE_THRESHOLD : ℝ := 0.1
def SMOOTH_BLEND : ℝ := 0.3
def BILATERAL_DEPTH_SIGMA : ℝ := 0.35
def BILATERAL_COLOR_SIGMA : ℝ := 0.08

def SPATIAL_KERNEL : List ℝ :=
  [0.075, 0.124, 0.075,
   0.124, 0.204, 0.124,
   0.075, 0.124, 0.075]

/-! ### JavaScript number primitives -/

/-- JavaScript `x >>> 0`: reduction to an unsigned 32-bit integer. -/
def jsToUint32 (z : ℤ) : ℤ := z % 4294967296

/-- JavaScript `ToInt32`, applied by the `<<` operator to its result. -/
def jsToInt32 (z : ℤ) : ℤ := (z + 2147483648) % 4294967296 - 2147483648

/-- JavaScript `Math.round` (rounds half-up). -/
def jsRound (q : ℚ) : ℤ := ⌊q + 1 / 2⌋

/-- Binary search for the integer square root: with `lo * lo ≤ m < hi * hi`
and enough fuel, narrows `[lo, hi)` to the floor square root of `m`.
(A fuel-indexed equivalent of `Nat.sqrt` that the kernel can evaluate.) -/
def isqrtAux (m : ℕ) : ℕ → ℕ → ℕ → ℕ
  | 0, lo, _ => lo
  | fuel + 1, lo, hi =>
    if hi ≤ lo + 1 then lo
    else
      let mid := (lo + hi) / 2
      if mid * mid ≤ m then isqrtAux m fuel mid hi else isqrtAux m fuel lo mid

/-- `⌊√m⌋` on naturals, kernel-evaluable. -/
def isqrt (m : ℕ) : ℕ := isqrtAux m (m + 2) 0 (m + 1)

/-- `Math.round (Math.sqrt q)` for `q ≥ 0`, modelled exactly:
the half-up rounding of the real square root, computed as
`⌊(⌊√(4q)⌋ + 1) / 2⌋`. -/
def jsRoundSqrt (q : ℚ) : ℕ := (isqrt (Int.toNat ⌊4 * q⌋) + 1) / 2

/-! ### Depth decoding (decodeRgbdeFile, inner right-half loop)

Source: `const encoded = (((a << 24) >>> 0) + (b << 16) + (g << 8) + r) >>> 0;`
`const depth = encoded / 10000;` -/

/-- The unsigned 32-bit value assembled from one right-half pixel's bytes,
with the JavaScript 32-bit semantics of `<<` and `>>> 0` made explicit. -/
def encodedOf (r g b a : ℕ) : ℤ :=
  jsToUint32 (jsToUint32 (jsToInt32 ((a : ℤ) * 16777216))
    + jsToInt32 ((b : ℤ) * 65536) + jsToInt32 ((g : ℤ) * 256) + (r : ℤ))

/-- Depth in meters decoded from one right-half pixel. -/
def decodedDepth (r g b a : ℕ) : ℚ := (encodedOf r g b a : ℚ) / 10000

/-! ### Mesh density selection (findBestMeshSize) -/

/-- One iteration of the candidate loop in `findBestMeshSize`.  The
accumulator is `(bestError, bestX, bestY)` with `bestError = none` standing
for the initial `Number.POSITIVE_INFINITY`. -/
def meshSizeStep (aspect : ℚ) (minMesh maxMesh : ℕ)
    (acc : Option ℚ × ℕ × ℤ) (t : ℕ) : Option ℚ × ℕ × ℤ :=
  let approxX := jsRoundSqrt ((t : ℚ) * aspect)
  if approxX = 0 then acc else
  let approxY := jsRound ((t : ℚ) / (approxX : ℚ))
  let product := (approxX : ℤ) * approxY
  if product < (minMesh : ℤ) ∨ (maxMesh : ℤ) < product then acc else
  let ratioError := |(approxX : ℚ) / (approxY : ℚ) - aspect|
  match acc with
  | (none, _, _) => (some ratioError, approxX, approxY)
  | (some e, bx, by') =>
      if ratioError < e then (some ratioError, approxX, approxY)
      else (some e, bx, by')

/-- The candidate loop `for (let t = minMesh; t <= maxMesh; t++)`, as a strict
tail recursion: the loop guard `t <= maxMesh` is tested each iteration, and the
fuel argument (chosen to outlast the guard) makes the recursion structural. -/
def meshSizeLoop (aspect : ℚ) (minMesh maxMesh : ℕ) :
    ℕ → ℕ → Option ℚ × ℕ × ℤ → Option ℚ × ℕ × ℤ
  | 0, _, best => best
  | fuel + 1, t, best =>
    if maxMesh < t then best
    else
      match meshSizeStep aspect minMesh maxMesh best t with
      | (e, bx, by') => meshSizeLoop aspect minMesh maxMesh fuel (t + 1) (e, bx, by')

/-- `findBestMeshSize(width, height, target, meshDiff)`: scans every candidate
vertex count in `[target - meshDiff, target + meshDiff]` and keeps the grid
whose aspect ratio is closest to the image's. -/
def findBestMeshSize (width height : ℕ) (target : ℕ := TARGET_MESH)
    (meshDiff : ℕ := MESH_DIFF) : ℕ × ℤ :=
  let aspect : ℚ := (width : ℚ) / (height : ℚ)
  let minMesh := max 1 (target - meshDiff)
  let maxMesh := target + meshDiff
  let result := meshSizeLoop aspect minMesh maxMesh (maxMesh + 1 - minMesh) minMesh
    (none, 0, 0)
  (result.2.1, result.2.2)

/-! #### Integer evaluator for `findBestMeshSize 1920 1080`

Evaluating the rational loop inside the kernel is expensive, so for the
concrete input `(1920, 1080)` (aspect ratio `16/9`) we mirror the loop with
pure natural-number arithmetic (`meshSizeStepInt`), prove it simulates
`meshSizeStep`, and evaluate only the integer loop. -/

def meshSizeStepInt (minMesh maxMesh : ℕ) (acc : ℕ × ℕ × ℕ × ℕ) (t : ℕ) :
    ℕ × ℕ × ℕ × ℕ :=
  let approxX := (isqrt (64 * t / 9) + 1) / 2
  if approxX = 0 then acc else
  let approxY := (2 * t + approxX) / (2 * approxX)
  let product := approxX * approxY
  if product < minMesh ∨ maxMesh < product then acc else
  let en := max (9 * approxX) (16 * approxY) - min (9 * approxX) (16 * approxY)
  let ed := 9 * approxY
  match acc with
  | (bn, bd, bx, by') =>
    if en * bd < bn * ed then (en, ed, approxX, approxY)
    else (bn, bd, bx, by')

/-- The integer loop counts fuel down and derives the candidate
`t = base - fuel` from it, so that every argument of every recursive call is a
closed numeral (this keeps evaluation shallow); with `base = maxMesh` it
processes exactly the candidates of the source loop. -/
def meshSizeLoopInt (minMesh maxMesh base : ℕ) :
    ℕ → ℕ × ℕ × ℕ × ℕ → ℕ × ℕ × ℕ × ℕ
  | 0, best => best
  | fuel + 1, best =>
    match meshSizeStepInt minMesh maxMesh best (base - fuel) with
    | (bn, bd, bx, by') => meshSizeLoopInt minMesh maxMesh base fuel (bn, bd, bx, by')

/-- The simulation relation between the rational-arithmetic accumulator and
the integer accumulator `(bn, bd, bx, by)`: the best grid agrees, and the best
ratio error is the fraction `bn / bd`, with `bd = 0` (so `bn / bd = ∞` in the
comparison `en * bd < bn * ed`) standing for the initial
`Number.POSITIVE_INFINITY`. -/
def MeshAccRel (a : Option ℚ × ℕ × ℤ) (b : ℕ × ℕ × ℕ × ℕ) : Prop :=
  a.2.1 = b.2.2.1 ∧ a.2.2 = (b.2.2.2 : ℤ) ∧
  match a.1 with
  | none => 0 < b.1 ∧ b.2.1 = 0
  | some q => q = (b.1 : ℚ) / (b.2.1 : ℚ) ∧ 0 < b.2.1

/-! ### Depth denoising (reduceDepthSpikes / applyEdgeAwareSmooth)

The denoiser uses `Math.sqrt` and `Math.exp`, so it is modelled over `ℝ`.
Each pass writes one output value per pixel, reading only the input grid, so a
pass is modelled as the list of per-pixel results. -/

/-- `colorDistance(r1, g1, b1, r2, g2, b2)`. -/
noncomputable def colorDistance (r1 g1 b1 r2 g2 b2 : ℝ) : ℝ :=
  let dr := (r1 - r2) / 255
  let dg := (g1 - g2) / 255
  let db := (b1 - b2) / 255
  Real.sqrt (dr * dr + dg * dg + db * db)

/-- `clampIndex(value, size)`: clamp a neighbour coordinate to the grid. -/
def clampIndex (value : ℤ) (size : ℕ) : ℕ :=
  if value < 0 then 0
  else if (size : ℤ) ≤ value then size - 1
  else value.toNat

/-- The `ky`/`kx` double loop over the 3×3 neighbourhood, in row-major order
(matching the traversal order of `SPATIAL_KERNEL`). -/
def kernelOffsets : List (ℤ × ℤ) :=
  ([-1, 0, 1] : List ℤ).flatMap fun ky =>
    ([-1, 0, 1] : List ℤ).map fun kx => (ky, kx)

open Classical in
/-- The clamped flat index of the neighbour at offset `p = (ky, kx)` of pixel
`(x, y)` (the `ny * width + nx` computation common to both passes). -/
def neighborIndex (width height x y : ℕ) (p : ℤ × ℤ) : ℕ :=
  clampIndex ((y : ℤ) + p.1) height * width + clampIndex ((x : ℤ) + p.2) width

/-- Pass A (`reduceDepthSpikes`) at one pixel.  The source's
`Number.isFinite(median)` guard is omitted: every modelled value is a finite
real, so the guard never fires. -/
noncomputable def spikePixel (depth : List ℝ) (colors : List ℕ)
    (width height x y : ℕ) : ℝ :=
  let idx := y * width + x
  let center := depth.getD idx 0
  if center ≤ 0 then center
  else
    let window := kernelOffsets.map fun p =>
      depth.getD (neighborIndex width height x y p) 0
    let sorted := window.mergeSort fun u v => decide (u ≤ v)
    let median := sorted.getD 4 0
    if |center - median| ≤ DEPTH_SPIKE_THRESHOLD then center
    else
      let neighbors := kernelOffsets.filter fun p => decide (p ≠ ((0 : ℤ), (0 : ℤ)))
      let stableCount := (neighbors.filter fun p =>
        decide (|depth.getD (neighborIndex width height x y p) 0 - median|
          < DEPTH_STABLE_TOLERANCE)).length
      let cr := (colors.getD (idx * 4) 0 : ℝ)
      let cg := (colors.getD (idx * 4 + 1) 0 : ℝ)
      let cb := (colors.getD (idx * 4 + 2) 0 : ℝ)
      let colorDiffAccum := (neighbors.map fun p =>
        let no := neighborIndex width height x y p * 4
        colorDistance cr cg cb (colors.getD no 0 : ℝ)
          (colors.getD (no + 1) 0 : ℝ) (colors.getD (no + 2) 0 : ℝ)).sum
      let avgColorDiff :=
        if 0 < neighbors.length then colorDiffAccum / (neighbors.length : ℝ) else 0
      if 5 ≤ stableCount ∧ avgColorDiff < COLOR_EDGE_THRESHOLD then median else center

/-- Pass A over the whole grid (row-major double loop). -/
noncomputable def reduceDepthSpikes (depth : List ℝ) (colors : List ℕ)
    (width height : ℕ) : List ℝ :=
  (List.range height).flatMap fun y =>
    (List.range width).map fun x => spikePixel depth colors width height x y

open Classical in
/-- Pass B (`applyEdgeAwareSmooth`) at one pixel. -/
noncomputable def smoothPixel (depth : List ℝ) (colors : List ℕ)
    (width height x y : ℕ) : ℝ :=
  let idx := y * width + x
  let center := depth.getD idx 0
  if center ≤ 0 then center
  else
    let cr := (colors.getD (idx * 4) 0 : ℝ)
    let cg := (colors.getD (idx * 4 + 1) 0 : ℝ)
    let cb := (colors.getD (idx * 4 + 2) 0 : ℝ)
    let terms := (kernelOffsets.zip SPATIAL_KERNEL).map fun pk =>
      let neighbor := depth.getD (neighborIndex width height x y pk.1) 0
      let depthDiff := neighbor - center
      let depthWeight := Real.exp (-(depthDiff * depthDiff)
        / (2 * BILATERAL_DEPTH_SIGMA * BILATERAL_DEPTH_SIGMA))
      let no := neighborIndex width height x y pk.1 * 4
      let colorDiff := colorDistance cr cg cb (colors.getD no 0 : ℝ)
        (colors.getD (no + 1) 0 : ℝ) (colors.getD (no + 2) 0 : ℝ)
      let colorWeight := Real.exp (-(colorDiff * colorDiff)
        / (2 * BILATERAL_COLOR_SIGMA * BILATERAL_COLOR_SIGMA))
      let weight := pk.2 * depthWeight * colorWeight
      (neighbor * weight, weight)
    let accum := (terms.map Prod.fst).sum
    let weightSum := (terms.map Prod.snd).sum
    let smoothed := if 0 < weightSum then accum / weightSum else center
    center + (smoothed - center) * SMOOTH_BLEND

/-- Pass B over the whole grid. -/
noncomputable def applyEdgeAwareSmooth (depth : List ℝ) (colors : List ℕ)
    (width height : ℕ) : List ℝ :=
  (List.range height).flatMap fun y =>
    (List.range width).map fun x => smoothPixel depth colors width height x y

/-- `preprocessDepth`: pass A then pass B.  The `!depth || !colors` null guard
of the source cannot fire in the embedding (lists are always present). -/
noncomputable def preprocessDepth (depth : List ℝ) (colors : List ℕ)
    (width height : ℕ) : List ℝ :=
  applyEdgeAwareSmooth (reduceDepthSpikes depth colors width height) colors width height

/-! ### decodeRgbdeFile: channel split, depth decode, stats -/

/-- The left-half colour copy (`leftPixels`), 4 bytes per pixel with the alpha
forced to 255. -/
def leftPixelsOf (data : List ℕ) (fullWidth width height : ℕ) : List ℕ :=
  (List.range height).flatMap fun y =>
    (List.range width).flatMap fun x =>
      [data.getD (y * fullWidth * 4 + x * 4) 0,
       data.getD (y * fullWidth * 4 + x * 4 + 1) 0,
       data.getD (y * fullWidth * 4 + x * 4 + 2) 0,
       255]

/-- The right-half depth decode (`depthValues`). -/
def depthValuesOf (data : List ℕ) (fullWidth width height : ℕ) : List ℚ :=
  (List.range height).flatMap fun y =>
    (List.range width).map fun x =>
      let depthIndex := y * fullWidth * 4 + width * 4 + x * 4
      decodedDepth (data.getD depthIndex 0) (data.getD (depthIndex + 1) 0)
        (data.getD (depthIndex + 2) 0) (data.getD (depthIndex + 3) 0)

open Classical in
/-- `computeDepthStats`: min/max over strictly positive depths; the
`Number.POSITIVE_INFINITY` start value of the minimum is modelled by `none`. -/
noncomputable def computeDepthStats (depth : List ℝ) : ℝ × ℝ :=
  let acc := depth.foldl (fun (acc : Option ℝ × ℝ) d =>
    if 0 < d then
      (some (match acc.1 with | none => d | some m => min m d), max acc.2 d)
    else acc) (none, 0)
  let mn := match acc.1 with | none => MIN_DEPTH_CLAMP | some m => m
  let mx := if acc.2 ≤ 0 then mn + 1 else acc.2
  (mn, mx)

/-- The decoded asset (the `textureImage` is the same pixel data as
`leftPixels` and is not modelled separately). -/
structure RgbdeAsset where
  width : ℕ
  height : ℕ
  leftPixels : List ℕ
  depth : List ℝ
  depthStatsMin : ℝ
  depthStatsMax : ℝ

/-- `decodeRgbdeFile`, from the parsed container `(fullWidth, height, data)`
onward: rejects odd widths, then splits, decodes, denoises and summarises.
(The local `depthMin`/`depthMax` accumulators of the source are dead after the
loop — the returned stats come from `computeDepthStats` — so they are not
modelled.) -/
noncomputable def decodeRgbdeFile (fullWidth height : ℕ) (data : List ℕ) :
    Except String RgbdeAsset :=
  if fullWidth % 2 ≠ 0 then
    Except.error "RGBDE PNG must have even width (RGB + depth halves)."
  else
    let width := fullWidth / 2
    let leftPixels := leftPixelsOf data fullWidth width height
    let depthValues := (depthValuesOf data fullWidth width height).map fun q => (q : ℝ)
    let smoothedDepth := preprocessDepth depthValues leftPixels width height
    let stats := computeDepthStats smoothedDepth
    Except.ok
      { width := width
        height := height
        leftPixels := leftPixels
        depth := smoothedDepth
        depthStatsMin := stats.1
        depthStatsMax := stats.2 }

/-! ### Mesh generation and live depth remapping -/

/-- The depth-curve mode (`options.mode`): the source compares the string
against `'log'`; every other value behaves as linear. -/
inductive DepthMode
  | linear
  | log

/-- `DepthTransformOptions`.  `farClip = none` models a non-finite far clip
(the source replaces it by `Number.POSITIVE_INFINITY`, and `Math.min x ∞ = x`,
which is the `none` branch of `remapFinalDepth`). -/
structure DepthTransformOptions where
  magnification : ℝ
  farClip : Option ℝ
  mode : DepthMode
  logPower : ℝ

/-- The MeshDescriptor returned by `generatePerspectiveMesh`.  Flat
`Float32Array`/`Uint32Array` buffers are modelled as lists of per-vertex
entries.  The `baseMinZ`/`baseMaxZ` framing statistics are not modelled (no
claim concerns them). -/
structure MeshDescriptor where
  positions : List (ℝ × ℝ × ℝ)
  rayDirections : List (ℝ × ℝ × ℝ)
  baseDepths : List ℝ
  uvs : List (ℝ × ℝ)
  indices : List ℕ
  vertexCount : ℕ
  indexCount : ℕ
  baseDepthMin : ℝ
  baseDepthMax : ℝ
  meshX : ℕ
  meshY : ℕ

open Classical in
/-- `normalize3` (`Math.hypot` is the square root of the sum of squares). -/
noncomputable def normalize3 (x y z : ℝ) : ℝ × ℝ × ℝ :=
  let len := Real.sqrt (x * x + y * y + z * z)
  if len = 0 then (0, 0, 1) else (x / len, y / len, z / len)

/-- `computeVerticalFov`. -/
noncomputable def computeVerticalFov (centerOffset : ℝ) : ℝ :=
  let clamped := min (max centerOffset CENTER_Z_MIN) CENTER_Z_MAX
  let t := (clamped - CENTER_Z_MIN) / (CENTER_Z_MAX - CENTER_Z_MIN)
  MIN_FOV_Y + (MAX_FOV_Y - MIN_FOV_Y) * t

open Classical in
/-- `sampleDepth`: bilinear sample with clamped corner indices; if the
interpolated value is not positive, fall back to `max d00 fallback`. -/
noncomputable def sampleDepth (depth : List ℝ) (width height : ℕ)
    (x y fallback : ℝ) : ℝ :=
  let ix := max 0 (min ((width : ℤ) - 1) ⌊x⌋)
  let iy := max 0 (min ((height : ℤ) - 1) ⌊y⌋)
  let fx := max 0 (min ((width : ℤ) - 1) ⌈x⌉)
  let fy := max 0 (min ((height : ℤ) - 1) ⌈y⌉)
  let tx := x - (ix : ℝ)
  let ty := y - (iy : ℝ)
  let d00 := depth.getD (iy.toNat * width + ix.toNat) 0
  let d10 := depth.getD (iy.toNat * width + fx.toNat) 0
  let d01 := depth.getD (fy.toNat * width + ix.toNat) 0
  let d11 := depth.getD (fy.toNat * width + fx.toNat) 0
  let top := d00 + (d10 - d00) * tx
  let bottom := d01 + (d11 - d01) * tx
  let value := top + (bottom - top) * ty
  if 0 < value then value else max d00 fallback

/-- The triangle-index double loop of `generatePerspectiveMesh`. -/
def buildIndices (meshX meshY : ℕ) : List ℕ :=
  (List.range meshY).flatMap fun lat =>
    (List.range meshX).flatMap fun lon =>
      let current := lat * (meshX + 1) + lon
      let next := current + meshX + 1
      [current, next, current + 1, current + 1, next, next + 1]

/-- `generatePerspectiveMesh`: one vertex per grid point `(lon, lat)`;
`fovDegrees = none` models a missing/non-finite `fovDegrees` argument. -/
noncomputable def generatePerspectiveMesh (depth : List ℝ)
    (width height meshX meshY : ℕ) (depthMin depthMax : ℝ) (centerZ : ℝ)
    (fovDegrees : Option ℝ) : MeshDescriptor :=
  let widthMinusOne : ℝ := max 1 ((width : ℝ) - 1)
  let heightMinusOne : ℝ := max 1 ((height : ℝ) - 1)
  let fovY := match fovDegrees with
    | some d => (min (max d 15) 120) * Real.pi / 180
    | none => computeVerticalFov centerZ
  let aspect := (width : ℝ) / (height : ℝ)
  let fovX := 2 * Real.arctan (Real.tan (fovY / 2) * aspect)
  let tanHalfX := Real.tan (fovX / 2)
  let tanHalfY := Real.tan (fovY / 2)
  let verts := (List.range (meshY + 1)).flatMap fun lat =>
    (List.range (meshX + 1)).map fun lon =>
      let meshV := (lat : ℝ) / (meshY : ℝ)
      let pixelY := meshV * heightMinusOne
      let u := (lon : ℝ) / (meshX : ℝ)
      let pixelX := u * widthMinusOne
      let screenX := (u - 0.5) * 2 * tanHalfX
      let screenY := (0.5 - meshV) * 2 * tanHalfY
      let dir := normalize3 screenX screenY 1
      let depthValue := sampleDepth depth width height pixelX pixelY depthMin
      (dir, depthValue, pixelX, meshV)
  { positions := verts.map fun v => (v.1.1 * v.2.1, v.1.2.1 * v.2.1, -v.1.2.2 * v.2.1)
    rayDirections := verts.map fun v => ((v.1.1, v.1.2.1, -v.1.2.2) : ℝ × ℝ × ℝ)
    baseDepths := verts.map fun v => v.2.1
    uvs := verts.map fun v => (v.2.2.1 / widthMinusOne, v.2.2.2)
    indices := buildIndices meshX meshY
    vertexCount := (meshX + 1) * (meshY + 1)
    indexCount := (buildIndices meshX meshY).length
    baseDepthMin := max depthMin MIN_DEPTH_CLAMP
    baseDepthMax := depthMax
    meshX := meshX
    meshY := meshY }

/-- The depth-curve shaping step of `updateVertexPositions`
(`relative`/`shaped`). -/
noncomputable def remapShapedDepth (minDepth logPower : ℝ) (mode : DepthMode)
    (base : ℝ) : ℝ :=
  let relative := max (base - minDepth + OFFSET) 0.001
  match mode with
  | DepthMode.log => minDepth + Real.log (1 + relative ^ logPower)
  | DepthMode.linear => base

/-- The magnification step of `updateVertexPositions` (`scaled`). -/
noncomputable def remapScaledDepth (baseDepthMin : ℝ)
    (opts : DepthTransformOptions) (base : ℝ) : ℝ :=
  let minDepth := max baseDepthMin MIN_DEPTH_CLAMP
  let scaledMin := minDepth
  scaledMin + opts.magnification
    * (remapShapedDepth minDepth opts.logPower opts.mode base - scaledMin)

/-- The final per-vertex depth of `updateVertexPositions`
(`Math.min(Math.max(scaled, scaledMin + 0.001), farLimit)`). -/
noncomputable def remapFinalDepth (baseDepthMin : ℝ)
    (opts : DepthTransformOptions) (base : ℝ) : ℝ :=
  let minDepth := max baseDepthMin MIN_DEPTH_CLAMP
  let scaledMin := minDepth
  match opts.farClip with
  | some farLimit =>
      min (max (remapScaledDepth baseDepthMin opts base) (scaledMin + 0.001)) farLimit
  | none => max (remapScaledDepth baseDepthMin opts base) (scaledMin + 0.001)

/-- `updateVertexPositions`: the loop writes only the positions buffer, one
triple `rayDirection * depth` per vertex; all other fields are untouched. -/
noncomputable def updateVertexPositions (mesh : MeshDescriptor)
    (opts : DepthTransformOptions) : MeshDescriptor :=
  let newPositions :=
    List.zipWith (fun dir base =>
        let depth := remapFinalDepth mesh.baseDepthMin opts base
        (dir.1 * depth, dir.2.1 * depth, dir.2.2 * depth))
      mesh.rayDirections mesh.baseDepths
  { mesh with positions := newPositions }

/-- A one-vertex mesh used as a concrete test input: ray direction `(0,0,-1)`
(unit length), a single base depth, and a given `baseDepthMin`. -/
noncomputable def testMesh (base bdMin : ℝ) : MeshDescriptor where
  positions := [(0, 0, 0)]
  rayDirections := [(0, 0, -1)]
  baseDepths := [base]
  uvs := [(0, 0)]
  indices := []
  vertexCount := 1
  indexCount := 0
  baseDepthMin := bdMin
  baseDepthMax := 1
  meshX := 1
  meshY := 1

/-- Linear-mode remap options with a given magnification and far clip. -/
noncomputable def linearOpts (mag : ℝ) (far : Option ℝ) : DepthTransformOptions where
  magnification := mag
  farClip := far
  mode := DepthMode.linear
  logPower := 1

/-! ### Theorems -/

theorem jsRoundSqrt_aspect (t : ℕ) :
    jsRoundSqrt ((t : ℚ) * (16 / 9)) = (isqrt (64 * t / 9) + 1) / 2 := by
  unfold jsRoundSqrt
  have h1 : (4 : ℚ) * ((t : ℚ) * (16 / 9)) = (((64 * t : ℕ) : ℤ) : ℚ) / ((9 : ℕ) : ℚ) := by
    push_cast; ring
  rw [h1, Rat.floor_intCast_div_natCast, ← Int.natCast_div, Int.toNat_natCast]

theorem jsRound_div_nat (t x : ℕ) (hx : x ≠ 0) :
    jsRound ((t : ℚ) / (x : ℚ)) = (((2 * t + x) / (2 * x) : ℕ) : ℤ) := by
  unfold jsRound
  have hx' : (x : ℚ) ≠ 0 := Nat.cast_ne_zero.mpr hx
  have h1 : (t : ℚ) / (x : ℚ) + 1 / 2 = (((2 * t + x : ℕ) : ℤ) : ℚ) / ((2 * x : ℕ) : ℚ) := by
    push_cast; field_simp; ring
  rw [h1, Rat.floor_intCast_div_natCast, Int.natCast_div]

theorem ratioError_16_9 (x y : ℕ) (hy : 0 < y) :
    |(x : ℚ) / (y : ℚ) - 16 / 9| =
      ((max (9 * x) (16 * y) - min (9 * x) (16 * y) : ℕ) : ℚ) / ((9 * y : ℕ) : ℚ) := by
  have hy' : (y : ℚ) ≠ 0 := Nat.cast_ne_zero.mpr hy.ne'
  have h1 : (x : ℚ) / (y : ℚ) - 16 / 9 = ((9 * x : ℚ) - (16 * y : ℚ)) / ((9 * (y : ℚ))) := by
    field_simp; ring
  have h2 : ((max (9 * x) (16 * y) - min (9 * x) (16 * y) : ℕ) : ℚ)
      = |(9 * x : ℚ) - (16 * y : ℚ)| := by
    rw [Nat.cast_sub (min_le_max)]
    push_cast [Nat.cast_max, Nat.cast_min]
    rw [max_sub_min_eq_abs, abs_sub_comm]
  have h3 : ((9 * y : ℕ) : ℚ) = |9 * (y : ℚ)| := by
    rw [abs_of_pos (by positivity)]; push_cast; ring
  rw [h1, abs_div, h2, h3]

theorem meshSizeStep_sim (minMesh maxMesh t : ℕ) (hmn : 0 < minMesh)
    (a : Option ℚ × ℕ × ℤ) (b : ℕ × ℕ × ℕ × ℕ)
    (h : MeshAccRel a b) :
    MeshAccRel (meshSizeStep (16 / 9) minMesh maxMesh a t)
      (meshSizeStepInt minMesh maxMesh b t) := by
  obtain ⟨ae, ax, ay⟩ := a
  obtain ⟨bn, bd, bx, by'⟩ := b
  obtain ⟨hx, hy, he⟩ := h
  simp only at hx hy
  subst hx hy
  set x := (isqrt (64 * t / 9) + 1) / 2 with hxdef
  have hxx : jsRoundSqrt ((t : ℚ) * (16 / 9)) = x := jsRoundSqrt_aspect t
  by_cases hx0 : x = 0
  · simp only [meshSizeStep, meshSizeStepInt, hxx, ← hxdef, hx0, if_pos rfl]
    exact ⟨rfl, rfl, he⟩
  · set yN := (2 * t + x) / (2 * x) with hydef
    have hyy : jsRound ((t : ℚ) / (x : ℚ)) = (yN : ℤ) := jsRound_div_nat t x hx0
    have hprod : (x : ℤ) * (yN : ℤ) = ((x * yN : ℕ) : ℤ) := by push_cast; ring
    have hband : ((x : ℤ) * (yN : ℤ) < (minMesh : ℤ) ∨ (maxMesh : ℤ) < (x : ℤ) * (yN : ℤ))
        ↔ (x * yN < minMesh ∨ maxMesh < x * yN) := by
      rw [hprod]
      constructor
      · rintro (h1 | h1)
        · exact Or.inl (by exact_mod_cast h1)
        · exact Or.inr (by exact_mod_cast h1)
      · rintro (h1 | h1)
        · exact Or.inl (by exact_mod_cast h1)
        · exact Or.inr (by exact_mod_cast h1)
    by_cases hb : x * yN < minMesh ∨ maxMesh < x * yN
    · simp only [meshSizeStep, meshSizeStepInt, hxx, ← hxdef, hx0, if_neg hx0, hyy, ← hydef,
        if_pos (hband.mpr hb), if_pos hb]
      exact ⟨rfl, rfl, he⟩
    · have hy1 : 0 < yN := by
        rcases Nat.eq_zero_or_pos yN with h0 | h1
        · exfalso; apply hb; left; rw [h0, Nat.mul_zero]; exact hmn
        · exact h1
      have herr : |(x : ℚ) / ((yN : ℤ) : ℚ) - 16 / 9|
          = ((max (9 * x) (16 * yN) - min (9 * x) (16 * yN) : ℕ) : ℚ) / ((9 * yN : ℕ) : ℚ) := by
        rw [show (((yN : ℤ)) : ℚ) = (yN : ℚ) by push_cast; ring]
        exact ratioError_16_9 x yN hy1
      set en := max (9 * x) (16 * yN) - min (9 * x) (16 * yN) with hendef
      set ed := 9 * yN with heddef
      have hed : 0 < ed := by positivity
      simp only [meshSizeStep, meshSizeStepInt, hxx, ← hxdef, if_neg hx0, hyy, ← hydef,
        if_neg (fun hc => hb (hband.mp hc)), if_neg hb, ← hendef, ← heddef]
      cases ae with
      | none =>
        obtain ⟨hbn, hbd⟩ := he
        simp only at hbn hbd
        have hlt : en * bd < bn * ed := by
          rw [hbd, Nat.mul_zero]
          exact Nat.mul_pos hbn hed
        simp only [if_pos hlt]
        exact ⟨rfl, rfl, herr, hed⟩
      | some q =>
        obtain ⟨hq, hbd⟩ := he
        have hcmp : (|(x : ℚ) / ((yN : ℤ) : ℚ) - 16 / 9| < q) ↔ (en * bd < bn * ed) := by
          rw [herr, hq, div_lt_div_iff₀ (by exact_mod_cast hed) (by exact_mod_cast hbd)]
          constructor
          · intro h1; exact_mod_cast h1
          · intro h1; exact_mod_cast h1
        by_cases hlt : en * bd < bn * ed
        · simp only [if_pos (hcmp.mpr hlt), if_pos hlt]
          exact ⟨rfl, rfl, herr, hed⟩
        · simp only [if_neg (fun hc => hlt (hcmp.mp hc)), if_neg hlt]
          exact ⟨rfl, rfl, hq, hbd⟩

theorem meshSizeLoopInt_add (minMesh maxMesh base b a : ℕ) :
    ∀ acc, meshSizeLoopInt minMesh maxMesh base (b + a) acc
      = meshSizeLoopInt minMesh maxMesh base a
          (meshSizeLoopInt minMesh maxMesh (base - a) b acc) := by
  induction b with
  | zero =>
    intro acc
    rw [Nat.zero_add]
    rfl
  | succ n ih =>
    intro acc
    have h1 : (n + 1) + a = (n + a) + 1 := by omega
    rw [h1]
    simp only [meshSizeLoopInt]
    have h2 : base - (n + a) = (base - a) - n := by omega
    rw [h2]
    rcases hstep : meshSizeStepInt minMesh maxMesh acc (base - a - n) with ⟨e, bd, bx, by'⟩
    exact ih _

theorem meshSizeLoop_sim (minMesh maxMesh : ℕ) (hmn : 0 < minMesh) :
    ∀ fuel : ℕ, fuel ≤ maxMesh + 1 →
    ∀ (a : Option ℚ × ℕ × ℤ) (b : ℕ × ℕ × ℕ × ℕ),
      MeshAccRel a b →
      MeshAccRel (meshSizeLoop (16 / 9) minMesh maxMesh fuel (maxMesh + 1 - fuel) a)
        (meshSizeLoopInt minMesh maxMesh maxMesh fuel b) := by
  intro fuel
  induction fuel with
  | zero => intro _ a b h; exact h
  | succ n ih =>
    intro hle a b h
    simp only [meshSizeLoop, meshSizeLoopInt]
    have ht : maxMesh + 1 - (n + 1) = maxMesh - n := by omega
    rw [ht]
    rw [if_neg (by omega : ¬ maxMesh < maxMesh - n)]
    have hs := meshSizeStep_sim minMesh maxMesh (maxMesh - n) hmn a b h
    rcases hq : meshSizeStep (16 / 9) minMesh maxMesh a (maxMesh - n) with ⟨e1, x1, y1⟩
    rcases hi : meshSizeStepInt minMesh maxMesh b (maxMesh - n) with ⟨e2, d2, x2, y2⟩
    rw [hq, hi] at hs
    have ht2 : (maxMesh - n) + 1 = maxMesh + 1 - n := by omega
    rw [ht2]
    exact ih (by omega) _ _ hs

set_option maxRecDepth 1000000 in
set_option maxHeartbeats 4000000 in
theorem meshSizeChunk1 :
    meshSizeLoopInt 248000 252000 249334 1335 (1, 0, 0, 0)
      = (1, 3366, 665, 374) := by
  with_unfolding_all decide

set_option maxRecDepth 1000000 in
set_option maxHeartbeats 4000000 in
theorem meshSizeChunk2 :
    meshSizeLoopInt 248000 252000 250667 1333 (1, 3366, 665, 374)
      = (1, 3366, 665, 374) := by
  with_unfolding_all decide

set_option maxRecDepth 1000000 in
set_option maxHeartbeats 4000000 in
theorem meshSizeChunk3 :
    meshSizeLoopInt 248000 252000 252000 1333 (1, 3366, 665, 374)
      = (1, 3366, 665, 374) := by
  with_unfolding_all decide

theorem meshSizeLoopInt_eval :
    meshSizeLoopInt 248000 252000 252000 4001 (1, 0, 0, 0)
      = (1, 3366, 665, 374) := by
  have hA := meshSizeLoopInt_add 248000 252000 252000 1335 2666 (1, 0, 0, 0)
  rw [show (1335 + 2666 : ℕ) = 4001 from rfl,
      show (252000 - 2666 : ℕ) = 249334 from rfl, meshSizeChunk1] at hA
  have hB := meshSizeLoopInt_add 248000 252000 252000 1333 1333 (1, 3366, 665, 374)
  rw [show (1333 + 1333 : ℕ) = 2666 from rfl,
      show (252000 - 1333 : ℕ) = 250667 from rfl, meshSizeChunk2] at hB
  rw [hA, hB, meshSizeChunk3]

theorem findBestMeshSize_eval : findBestMeshSize 1920 1080 = (665, 374) := by
  have h0 : MeshAccRel (none, 0, 0) (1, 0, 0, 0) := ⟨rfl, rfl, by norm_num, rfl⟩
  have hsim := meshSizeLoop_sim 248000 252000 (by norm_num) 4001 (by norm_num) _ _ h0
  rw [meshSizeLoopInt_eval] at hsim
  rw [show (252000 + 1 - 4001 : ℕ) = 248000 from rfl] at hsim
  obtain ⟨h1, h2, _⟩ := hsim
  have hu : findBestMeshSize 1920 1080 =
      ((meshSizeLoop (16 / 9) 248000 252000 4001 248000 (none, 0, 0)).2.1,
       (meshSizeLoop (16 / 9) 248000 252000 4001 248000 (none, 0, 0)).2.2) := by
    simp only [findBestMeshSize, TARGET_MESH, MESH_DIFF]
    rw [show (250000 - 2000 : ℕ) = 248000 from by norm_num]
    rw [show (1 ⊔ 248000 : ℕ) = 248000 from by norm_num]
    rw [show (250000 + 2000 : ℕ) = 252000 from by norm_num]
    rw [show (252000 + 1 - 248000 : ℕ) = 4001 from by norm_num]
    rw [show ((1920 : ℕ) : ℚ) / ((1080 : ℕ) : ℚ) = 16 / 9 from by norm_num]
  rw [hu, h1, h2]
  rfl

/-- C6: Mesh density selection for the concrete input (1920, 1080) with the
default budget 250000 and tolerance 2000: `findBestMeshSize(1920, 1080)`
returns columns and rows such that `columns * rows` lies in
`[248000, 252000]` and `|columns / rows - 1920 / 1080| < 0.01`. -/
theorem claimC6 :
    248000 ≤ ((findBestMeshSize 1920 1080).1 : ℤ) * (findBestMeshSize 1920 1080).2 ∧
    ((findBestMeshSize 1920 1080).1 : ℤ) * (findBestMeshSize 1920 1080).2 ≤ 252000 ∧
    |((findBestMeshSize 1920 1080).1 : ℚ) / (((findBestMeshSize 1920 1080).2 : ℤ) : ℚ)
      - 1920 / 1080| < 1 / 100 := by
  rw [findBestMeshSize_eval]
  refine ⟨by norm_num, by norm_num, ?_⟩
  rw [abs_sub_lt_iff]
  constructor <;> norm_num

/-- For byte values, the JavaScript shift/add expression assembles exactly
`a * 2^24 + b * 2^16 + g * 2^8 + r`. -/
theorem encodedOf_eq (r g b a : ℕ) (hr : r < 256) (hg : g < 256) (hb : b < 256)
    (ha : a < 256) :
    encodedOf r g b a = ((a * 16777216 + b * 65536 + g * 256 + r : ℕ) : ℤ) := by
  unfold encodedOf jsToUint32 jsToInt32
  push_cast
  omega

/-- C1 (counterexample): the claim's second example is wrong by a factor of
1000: bytes `(R,G,B,A) = (0,0,0,1)` decode to `16777216 / 10000 = 1677.7216`
meters, not `1677721.6`. -/
theorem claimC1_counterexample :
    decodedDepth 0 0 0 1 = 1677.7216 ∧ decodedDepth 0 0 0 1 ≠ 1677721.6 := by
  have he : encodedOf 0 0 0 1 = 16777216 := by
    unfold encodedOf jsToUint32 jsToInt32
    omega
  unfold decodedDepth
  rw [he]
  norm_num

/-- C1 (amended): for every right-half pixel with channel bytes (R,G,B,A),
the decoder computes the unsigned 32-bit integer `(A<<24)|(B<<16)|(G<<8)|R`
and divides it by 10000; bytes `(16,0,0,0)` decode to `0.0016` m and bytes
`(0,0,0,1)` decode to `1677.7216` m. -/
theorem claimC1_amended (r g b a : ℕ) (hr : r < 256) (hg : g < 256)
    (hb : b < 256) (ha : a < 256) :
    decodedDepth r g b a = ((a * 16777216 + b * 65536 + g * 256 + r : ℕ) : ℚ) / 10000 ∧
    decodedDepth 16 0 0 0 = 0.0016 ∧
    decodedDepth 0 0 0 1 = 1677.7216 := by
  refine ⟨?_, ?_, ?_⟩
  · unfold decodedDepth
    rw [encodedOf_eq r g b a hr hg hb ha]
    norm_num
  · have he : encodedOf 16 0 0 0 = 16 := by
      unfold encodedOf jsToUint32 jsToInt32
      omega
    unfold decodedDepth
    rw [he]
    norm_num
  · have he : encodedOf 0 0 0 1 = 16777216 := by
      unfold encodedOf jsToUint32 jsToInt32
      omega
    unfold decodedDepth
    rw [he]
    norm_num

theorem claimC1_amended_witness :
    decodedDepth 16 0 0 32
        = ((32 * 16777216 + 0 * 65536 + 0 * 256 + 16 : ℕ) : ℚ) / 10000 ∧
    decodedDepth 16 0 0 0 = 0.0016 ∧
    decodedDepth 0 0 0 1 = 1677.7216 :=
  claimC1_amended 16 0 0 32 (by norm_num) (by norm_num) (by norm_num) (by norm_num)

/-- C5: a container whose decoded image width is odd fails decode with the
format error before any depth decoding occurs: the result is the error value,
so no asset (and no depth value) is ever produced. -/
theorem claimC5 (fullWidth height : ℕ) (data : List ℕ)
    (hodd : fullWidth % 2 = 1) :
    decodeRgbdeFile fullWidth height data
      = Except.error "RGBDE PNG must have even width (RGB + depth halves)." := by
  unfold decodeRgbdeFile
  rw [if_pos (by omega)]

theorem claimC5_witness :
    decodeRgbdeFile 3 1 []
      = Except.error "RGBDE PNG must have even width (RGB + depth halves)." :=
  claimC5 3 1 [] (by norm_num)

/-- C9: the Depth Remapper rewrites only the positions buffer; the ray
directions, base depths, UVs and indices of the mesh are unchanged. -/
theorem claimC9 (mesh : MeshDescriptor) (opts : DepthTransformOptions) :
    (updateVertexPositions mesh opts).rayDirections = mesh.rayDirections ∧
    (updateVertexPositions mesh opts).baseDepths = mesh.baseDepths ∧
    (updateVertexPositions mesh opts).uvs = mesh.uvs ∧
    (updateVertexPositions mesh opts).indices = mesh.indices :=
  ⟨rfl, rfl, rfl, rfl⟩

/-- Lerp-of-lerps equals the standard bilinear combination. -/
theorem bilinear_lerp (d00 d10 d01 d11 tx ty : ℝ) :
    (d00 + (d10 - d00) * tx) + ((d01 + (d11 - d01) * tx) - (d00 + (d10 - d00) * tx)) * ty
      = (1 - tx) * (1 - ty) * d00 + tx * (1 - ty) * d10
        + (1 - tx) * ty * d01 + tx * ty * d11 := by
  ring

/-- C8: the sampler returns the bilinearly interpolated depth when it is
positive, and otherwise falls back to `max d00 fallback` — the nearest
top-left sample or the passed grid minimum, not a nearest-valid search. -/
theorem claimC8 (depth : List ℝ) (width height : ℕ) (x y fallback : ℝ) :
    sampleDepth depth width height x y fallback =
      (let ix := max 0 (min ((width : ℤ) - 1) ⌊x⌋)
       let iy := max 0 (min ((height : ℤ) - 1) ⌊y⌋)
       let fx := max 0 (min ((width : ℤ) - 1) ⌈x⌉)
       let fy := max 0 (min ((height : ℤ) - 1) ⌈y⌉)
       let tx := x - (ix : ℝ)
       let ty := y - (iy : ℝ)
       let d00 := depth.getD (iy.toNat * width + ix.toNat) 0
       let d10 := depth.getD (iy.toNat * width + fx.toNat) 0
       let d01 := depth.getD (fy.toNat * width + ix.toNat) 0
       let d11 := depth.getD (fy.toNat * width + fx.toNat) 0
       let value := (1 - tx) * (1 - ty) * d00 + tx * (1 - ty) * d10
           + (1 - tx) * ty * d01 + tx * ty * d11
       if 0 < value then value else max d00 fallback) := by
  simp only [sampleDepth]
  rw [bilinear_lerp]

/-- C2 (counterexample): with `mode = linear`, `magnification = 1` and
`farClip = ∞`, a vertex whose base depth `0.15` does not exceed
`max(baseDepthMin, 0.15) + 0.001` is clamped to depth `0.151`, so its position
is not `rayDirection * baseDepth`. -/
theorem claimC2_counterexample :
    (updateVertexPositions (testMesh 0.15 0.15) (linearOpts 1 none)).positions.getD 0 (0, 0, 0)
      ≠ ((0 : ℝ) * 0.15, (0 : ℝ) * 0.15, (-1 : ℝ) * 0.15) := by
  have hd : remapFinalDepth (0.15 : ℝ) (linearOpts 1 none) 0.15 = 0.151 := by
    simp only [remapFinalDepth, remapScaledDepth, remapShapedDepth, linearOpts,
      MIN_DEPTH_CLAMP, max_self]
    norm_num
  intro hEq
  have h3 := congrArg (fun p => p.2.2) hEq
  simp only [updateVertexPositions, testMesh, List.zipWith, List.getD,
    List.getElem?_cons_zero, Option.getD_some] at h3
  rw [hd] at h3
  norm_num at h3

/-- C2 (amended): with `mode = linear`, `magnification = 1`, `farClip = ∞`,
every vertex whose base depth is at least `max(baseDepthMin, 0.15) + 0.001`
(the remapper's lower clamp) gets position exactly
`rayDirection * baseDepth`. -/
theorem claimC2_amended (mesh : MeshDescriptor) (opts : DepthTransformOptions) (i : ℕ)
    (hmode : opts.mode = DepthMode.linear) (hmag : opts.magnification = 1)
    (hfar : opts.farClip = none)
    (hi : i < mesh.rayDirections.length) (hi2 : i < mesh.baseDepths.length)
    (hbase : max mesh.baseDepthMin MIN_DEPTH_CLAMP + 0.001 ≤ mesh.baseDepths.getD i 0) :
    (updateVertexPositions mesh opts).positions.getD i (0, 0, 0)
      = ((mesh.rayDirections.getD i (0, 0, 0)).1 * mesh.baseDepths.getD i 0,
         (mesh.rayDirections.getD i (0, 0, 0)).2.1 * mesh.baseDepths.getD i 0,
         (mesh.rayDirections.getD i (0, 0, 0)).2.2 * mesh.baseDepths.getD i 0) := by
  have hdepth : remapFinalDepth mesh.baseDepthMin opts (mesh.baseDepths.getD i 0)
      = mesh.baseDepths.getD i 0 := by
    simp only [remapFinalDepth, remapScaledDepth, remapShapedDepth, hmode, hmag, hfar,
      one_mul]
    have h1 : max mesh.baseDepthMin MIN_DEPTH_CLAMP
        + (mesh.baseDepths.getD i 0 - max mesh.baseDepthMin MIN_DEPTH_CLAMP)
        = mesh.baseDepths.getD i 0 := by ring
    rw [h1]
    exact max_eq_left (le_trans (by linarith) hbase)
  have hlen : i < (List.zipWith (fun dir base =>
      let depth := remapFinalDepth mesh.baseDepthMin opts base
      ((dir.1 * depth, dir.2.1 * depth, dir.2.2 * depth) : ℝ × ℝ × ℝ))
      mesh.rayDirections mesh.baseDepths).length := by
    rw [List.length_zipWith]
    exact lt_min hi hi2
  show (List.zipWith _ mesh.rayDirections mesh.baseDepths).getD i (0, 0, 0) = _
  rw [List.getD_eq_getElem _ _ hlen, List.getElem_zipWith]
  simp only
  rw [List.getD_eq_getElem mesh.baseDepths 0 hi2] at hdepth
  rw [List.getD_eq_getElem mesh.rayDirections (0, 0, 0) hi,
    List.getD_eq_getElem mesh.baseDepths 0 hi2, hdepth]

theorem claimC2_amended_witness :
    (updateVertexPositions (testMesh 1 0.15) (linearOpts 1 none)).positions.getD 0 (0, 0, 0)
      = (((testMesh 1 0.15).rayDirections.getD 0 (0, 0, 0)).1
            * (testMesh 1 0.15).baseDepths.getD 0 0,
         ((testMesh 1 0.15).rayDirections.getD 0 (0, 0, 0)).2.1
            * (testMesh 1 0.15).baseDepths.getD 0 0,
         ((testMesh 1 0.15).rayDirections.getD 0 (0, 0, 0)).2.2
            * (testMesh 1 0.15).baseDepths.getD 0 0) :=
  claimC2_amended (testMesh 1 0.15) (linearOpts 1 none) 0 rfl rfl rfl
    (by simp [testMesh]) (by simp [testMesh])
    (by simp [testMesh, MIN_DEPTH_CLAMP]; norm_num)

/-- C3: with `farClip = 5`, every vertex whose shaped-and-magnified depth
exceeds 5 and whose stored ray direction is unit length gets a position whose
scalar component along the ray direction is exactly 5. -/
theorem claimC3 (mesh : MeshDescriptor) (opts : DepthTransformOptions) (i : ℕ)
    (hfar : opts.farClip = some 5)
    (hi : i < mesh.rayDirections.length) (hi2 : i < mesh.baseDepths.length)
    (hunit : (mesh.rayDirections.getD i (0, 0, 0)).1 ^ 2
        + (mesh.rayDirections.getD i (0, 0, 0)).2.1 ^ 2
        + (mesh.rayDirections.getD i (0, 0, 0)).2.2 ^ 2 = 1)
    (hexceed : 5 < remapScaledDepth mesh.baseDepthMin opts (mesh.baseDepths.getD i 0)) :
    ((updateVertexPositions mesh opts).positions.getD i (0, 0, 0)).1
        * (mesh.rayDirections.getD i (0, 0, 0)).1
      + ((updateVertexPositions mesh opts).positions.getD i (0, 0, 0)).2.1
        * (mesh.rayDirections.getD i (0, 0, 0)).2.1
      + ((updateVertexPositions mesh opts).positions.getD i (0, 0, 0)).2.2
        * (mesh.rayDirections.getD i (0, 0, 0)).2.2 = 5 := by
  have hdepth : remapFinalDepth mesh.baseDepthMin opts (mesh.baseDepths.getD i 0) = 5 := by
    simp only [remapFinalDepth, hfar]
    exact min_eq_right (le_trans (le_of_lt hexceed) (le_max_left _ _))
  have hlen : i < (List.zipWith (fun dir base =>
      let depth := remapFinalDepth mesh.baseDepthMin opts base
      ((dir.1 * depth, dir.2.1 * depth, dir.2.2 * depth) : ℝ × ℝ × ℝ))
      mesh.rayDirections mesh.baseDepths).length := by
    rw [List.length_zipWith]
    exact lt_min hi hi2
  show ((List.zipWith _ mesh.rayDirections mesh.baseDepths).getD i (0, 0, 0)).1 * _
      + ((List.zipWith _ mesh.rayDirections mesh.baseDepths).getD i (0, 0, 0)).2.1 * _
      + ((List.zipWith _ mesh.rayDirections mesh.baseDepths).getD i (0, 0, 0)).2.2 * _ = 5
  rw [List.getD_eq_getElem _ _ hlen, List.getElem_zipWith]
  simp only
  rw [List.getD_eq_getElem mesh.baseDepths 0 hi2] at hdepth
  rw [List.getD_eq_getElem mesh.rayDirections (0, 0, 0) hi] at hunit
  rw [List.getD_eq_getElem mesh.rayDirections (0, 0, 0) hi, hdepth]
  nlinarith [hunit]

theorem claimC3_witness :
    ((updateVertexPositions (testMesh 1 0.15) (linearOpts 10 (some 5))).positions.getD 0
          (0, 0, 0)).1 * ((testMesh 1 0.15).rayDirections.getD 0 (0, 0, 0)).1
      + ((updateVertexPositions (testMesh 1 0.15) (linearOpts 10 (some 5))).positions.getD 0
          (0, 0, 0)).2.1 * ((testMesh 1 0.15).rayDirections.getD 0 (0, 0, 0)).2.1
      + ((updateVertexPositions (testMesh 1 0.15) (linearOpts 10 (some 5))).positions.getD 0
          (0, 0, 0)).2.2 * ((testMesh 1 0.15).rayDirections.getD 0 (0, 0, 0)).2.2 = 5 :=
  claimC3 (testMesh 1 0.15) (linearOpts 10 (some 5)) 0 rfl
    (by simp [testMesh]) (by simp [testMesh])
    (by norm_num [testMesh])
    (by simp only [remapScaledDepth, remapShapedDepth, linearOpts, testMesh,
          MIN_DEPTH_CLAMP, max_self]
        norm_num)

/-- Sum of a constant map. -/
theorem sum_map_constNat {α : Type} (l : List α) (c : ℕ) :
    (l.map fun _ => c).sum = l.length * c := by
  induction l with
  | nil => simp
  | cons hd tl ih => simp [ih, Nat.succ_mul, Nat.add_comm]

/-- The index buffer has `meshX * meshY * 6` entries. -/
theorem buildIndices_length (meshX meshY : ℕ) :
    (buildIndices meshX meshY).length = meshX * meshY * 6 := by
  unfold buildIndices
  rw [List.length_flatMap]
  have hinner : ∀ lat : ℕ,
      ((List.range meshX).flatMap fun lon =>
        [lat * (meshX + 1) + lon, lat * (meshX + 1) + lon + meshX + 1,
         lat * (meshX + 1) + lon + 1, lat * (meshX + 1) + lon + 1,
         lat * (meshX + 1) + lon + meshX + 1,
         lat * (meshX + 1) + lon + meshX + 1 + 1]).length = meshX * 6 := by
    intro lat
    rw [List.length_flatMap]
    simp only [Function.comp_def, List.length_cons, List.length_nil]
    rw [show (0 + 1 + 1 + 1 + 1 + 1 + 1 : ℕ) = 6 from rfl]
    rw [sum_map_constNat, List.length_range]
  calc (List.map (List.length ∘ fun lat => (List.range meshX).flatMap fun lon =>
          let current := lat * (meshX + 1) + lon
          let next := current + meshX + 1
          [current, next, current + 1, current + 1, next, next + 1]) (List.range meshY)).sum
      = ((List.range meshY).map fun _ => meshX * 6).sum := by
        apply congrArg
        apply List.map_congr_left
        intro lat _
        exact hinner lat
    _ = meshY * (meshX * 6) := by rw [sum_map_constNat, List.length_range]
    _ = meshX * meshY * 6 := by ring

/-- C7: the MeshDescriptor satisfies `vertexCount = (columns+1) * (rows+1)`
and `indices.length = columns * rows * 6`. -/
theorem claimC7 (depth : List ℝ) (width height meshX meshY : ℕ)
    (depthMin depthMax centerZ : ℝ) (fovDegrees : Option ℝ)
    (hx : 1 ≤ meshX) (hy : 1 ≤ meshY) :
    (generatePerspectiveMesh depth width height meshX meshY depthMin depthMax
        centerZ fovDegrees).vertexCount = (meshX + 1) * (meshY + 1) ∧
    (generatePerspectiveMesh depth width height meshX meshY depthMin depthMax
        centerZ fovDegrees).indices.length = meshX * meshY * 6 :=
  ⟨rfl, buildIndices_length meshX meshY⟩

theorem claimC7_witness :
    (generatePerspectiveMesh [] 1 1 1 1 0 1 0 none).vertexCount = (1 + 1) * (1 + 1) ∧
    (generatePerspectiveMesh [] 1 1 1 1 0 1 0 none).indices.length = 1 * 1 * 6 :=
  claimC7 [] 1 1 1 1 0 1 0 none (le_refl 1) (le_refl 1)

/-- Every index the cell loop emits is below `(meshX+1) * (meshY+1)`. -/
theorem cell_index_lt (X Y lat lon : ℕ) (hlat : lat < Y) (hlon : lon < X) :
    lat * (X + 1) + lon + X + 2 < (X + 1) * (Y + 1) := by
  have h1 : (lat + 1) * (X + 1) ≤ Y * (X + 1) :=
    Nat.mul_le_mul_right (X + 1) hlat
  calc lat * (X + 1) + lon + X + 2
      = (lat + 1) * (X + 1) + lon + 1 := by ring
    _ ≤ Y * (X + 1) + lon + 1 := by omega
    _ ≤ Y * (X + 1) + X := by omega
    _ < Y * (X + 1) + X + 1 := by omega
    _ = (X + 1) * (Y + 1) := by ring

/-- C10: every entry of the triangle index buffer is strictly less than
`vertexCount`, so every index references an existing vertex. -/
theorem claimC10 (depth : List ℝ) (width height meshX meshY : ℕ)
    (depthMin depthMax centerZ : ℝ) (fovDegrees : Option ℝ)
    (hx : 1 ≤ meshX) (hy : 1 ≤ meshY) :
    ∀ i ∈ (generatePerspectiveMesh depth width height meshX meshY depthMin depthMax
        centerZ fovDegrees).indices,
      i < (generatePerspectiveMesh depth width height meshX meshY depthMin depthMax
        centerZ fovDegrees).vertexCount := by
  intro i hi
  show i < (meshX + 1) * (meshY + 1)
  have hi' : i ∈ buildIndices meshX meshY := hi
  unfold buildIndices at hi'
  rw [List.mem_flatMap] at hi'
  obtain ⟨lat, hlat, hi2⟩ := hi'
  rw [List.mem_flatMap] at hi2
  obtain ⟨lon, hlon, hmem⟩ := hi2
  rw [List.mem_range] at hlat hlon
  have hkey := cell_index_lt meshX meshY lat lon hlat hlon
  simp only [List.mem_cons, List.not_mem_nil, or_false] at hmem
  rcases hmem with rfl | rfl | rfl | rfl | rfl | rfl <;> omega

theorem claimC10_witness :
    (3 : ℕ) < (generatePerspectiveMesh [] 1 1 1 1 0 1 0 none).vertexCount :=
  claimC10 [] 1 1 1 1 0 1 0 none (le_refl 1) (le_refl 1) 3
    (by show (3 : ℕ) ∈ buildIndices 1 1; decide)

/-- Reading any grid cell of a nonnegative grid gives a nonnegative value
(the default for out-of-range reads is 0). -/
theorem getD_nonneg {l : List ℝ} (h : ∀ d ∈ l, 0 ≤ d) (i : ℕ) : 0 ≤ l.getD i 0 := by
  by_cases hi : i < l.length
  · rw [List.getD_eq_getElem l 0 hi]
    exact h _ (List.getElem_mem hi)
  · rw [List.getD_eq_default l 0 (le_of_not_lt hi)]

/-- Pass A never produces a negative value: its output at a pixel is either
the original centre depth or the neighbourhood median, both nonnegative. -/
theorem spikePixel_nonneg (depth : List ℝ) (colors : List ℕ)
    (width height x y : ℕ) (h : ∀ d ∈ depth, 0 ≤ d) :
    0 ≤ spikePixel depth colors width height x y := by
  have hcnn : 0 ≤ depth.getD (y * width + x) 0 := getD_nonneg h _
  have hwin : ∀ w ∈ kernelOffsets.map fun p =>
      depth.getD (neighborIndex width height x y p) 0, 0 ≤ w := by
    intro w hw
    rw [List.mem_map] at hw
    obtain ⟨p, _, rfl⟩ := hw
    exact getD_nonneg h _
  have hmed : 0 ≤ ((kernelOffsets.map fun p =>
      depth.getD (neighborIndex width height x y p) 0).mergeSort
        fun u v => decide (u ≤ v)).getD 4 0 := by
    have hlen : 4 < ((kernelOffsets.map fun p =>
        depth.getD (neighborIndex width height x y p) 0).mergeSort
          fun u v => decide (u ≤ v)).length := by
      rw [List.length_mergeSort, List.length_map]
      show 4 < kernelOffsets.length
      decide
    rw [List.getD_eq_getElem _ _ hlen]
    exact hwin _ ((List.mergeSort_perm _ _).subset (List.getElem_mem hlen))
  simp only [spikePixel]
  split_ifs <;> first | exact hcnn | exact hmed

/-- Pass A leaves non-positive pixels unchanged. -/
theorem spikePixel_nonpos (depth : List ℝ) (colors : List ℕ)
    (width height x y : ℕ) (hle : depth.getD (y * width + x) 0 ≤ 0) :
    spikePixel depth colors width height x y = depth.getD (y * width + x) 0 := by
  simp only [spikePixel]
  rw [if_pos hle]

/-- Every spatial kernel weight is strictly positive. -/
theorem kernel_pos : ∀ k ∈ SPATIAL_KERNEL, (0 : ℝ) < k := by
  intro k hk
  simp only [SPATIAL_KERNEL, List.mem_cons, List.not_mem_nil, or_false] at hk
  rcases hk with rfl | rfl | rfl | rfl | rfl | rfl | rfl | rfl | rfl <;> norm_num

/-- The 30% blend of a positive centre toward a nonnegative average is
strictly positive. -/
theorem blend_pos (c s : ℝ) (hc : 0 < c) (hs : 0 ≤ s) :
    0 < c + (s - c) * SMOOTH_BLEND := by
  simp only [SMOOTH_BLEND]
  nlinarith

/-- Pass B at one pixel: non-positive centres pass through unchanged, and
positive centres stay strictly positive. -/
theorem smoothPixel_result (depth : List ℝ) (colors : List ℕ)
    (width height x y : ℕ) (h : ∀ d ∈ depth, 0 ≤ d) :
    (depth.getD (y * width + x) 0 ≤ 0 →
      smoothPixel depth colors width height x y = depth.getD (y * width + x) 0) ∧
    (0 < depth.getD (y * width + x) 0 →
      0 < smoothPixel depth colors width height x y) := by
  constructor
  · intro hle
    simp only [smoothPixel]
    rw [if_pos hle]
  · intro hpos
    simp only [smoothPixel]
    rw [if_neg (not_le.mpr hpos)]
    apply blend_pos _ _ hpos
    split_ifs with hws
    · apply div_nonneg _ (le_of_lt hws)
      apply List.sum_nonneg
      intro t ht
      rw [List.mem_map] at ht
      obtain ⟨q, hq, rfl⟩ := ht
      rw [List.mem_map] at hq
      obtain ⟨pk, hpk, rfl⟩ := hq
      simp only
      apply mul_nonneg (getD_nonneg h _)
      have hk := kernel_pos pk.2 (List.of_mem_zip hpk).2
      positivity
    · exact le_of_lt hpos

/-- Length of a row-major grid built by the nested loops. -/
theorem grid_length (f : ℕ → ℕ → ℝ) (w h : ℕ) :
    ((List.range h).flatMap fun y => (List.range w).map fun x => f x y).length
      = h * w := by
  rw [List.length_flatMap]
  have hmap : (List.map (List.length ∘ fun y => (List.range w).map fun x => f x y)
      (List.range h)) = (List.range h).map fun _ => w := by
    simp only [Function.comp_def, List.length_map, List.length_range]
  rw [hmap, sum_map_constNat, List.length_range]

/-- Reading the row-major grid at `(x, y)` gives the generator value. -/
theorem grid_getD (f : ℕ → ℕ → ℝ) (w h x y : ℕ) (hx : x < w) (hy : y < h) :
    ((List.range h).flatMap fun yy => (List.range w).map fun xx => f xx yy).getD
      (y * w + x) 0 = f x y := by
  induction h with
  | zero => omega
  | succ n ih =>
    rw [List.range_succ, List.flatMap_append]
    by_cases hyn : y < n
    · rw [List.getD_append]
      · exact ih hyn
      · rw [grid_length]
        nlinarith
    · have hyn' : y = n := by omega
      subst hyn'
      rw [List.getD_append_right]
      · rw [grid_length]
        have hidx : y * w + x - y * w = x := by omega
        rw [hidx]
        simp only [List.flatMap_cons, List.flatMap_nil, List.append_nil]
        have hxlen : x < ((List.range w).map fun xx => f xx y).length := by
          rw [List.length_map, List.length_range]
          exact hx
        rw [List.getD_eq_getElem _ _ hxlen, List.getElem_map, List.getElem_range]
      · rw [grid_length]
        omega

/-- C4: if every input depth is 0 or positive, both denoiser passes produce
grids whose values are all 0 or strictly positive (never negative), and
pixels with non-positive depth pass through both passes unchanged. -/
theorem claimC4 (depth : List ℝ) (colors : List ℕ) (width height : ℕ)
    (h : ∀ d ∈ depth, 0 ≤ d) :
    (∀ d ∈ reduceDepthSpikes depth colors width height, d = 0 ∨ 0 < d) ∧
    (∀ d ∈ applyEdgeAwareSmooth (reduceDepthSpikes depth colors width height)
        colors width height, d = 0 ∨ 0 < d) ∧
    (∀ x y, x < width → y < height → depth.getD (y * width + x) 0 ≤ 0 →
      (reduceDepthSpikes depth colors width height).getD (y * width + x) 0
          = depth.getD (y * width + x) 0 ∧
      (applyEdgeAwareSmooth (reduceDepthSpikes depth colors width height) colors
          width height).getD (y * width + x) 0 = depth.getD (y * width + x) 0) := by
  have hspike_nn : ∀ d ∈ reduceDepthSpikes depth colors width height, 0 ≤ d := by
    intro d hd
    unfold reduceDepthSpikes at hd
    rw [List.mem_flatMap] at hd
    obtain ⟨y, _, hd2⟩ := hd
    rw [List.mem_map] at hd2
    obtain ⟨x, _, rfl⟩ := hd2
    exact spikePixel_nonneg depth colors width height x y h
  refine ⟨?_, ?_, ?_⟩
  · intro d hd
    exact (eq_or_lt_of_le (hspike_nn d hd)).imp Eq.symm id
  · intro d hd
    unfold applyEdgeAwareSmooth at hd
    rw [List.mem_flatMap] at hd
    obtain ⟨y, _, hd2⟩ := hd
    rw [List.mem_map] at hd2
    obtain ⟨x, _, rfl⟩ := hd2
    rcases le_or_lt ((reduceDepthSpikes depth colors width height).getD
        (y * width + x) 0) 0 with hle | hpos
    · left
      rw [(smoothPixel_result _ colors width height x y hspike_nn).1 hle]
      exact le_antisymm hle (getD_nonneg hspike_nn _)
    · right
      exact (smoothPixel_result _ colors width height x y hspike_nn).2 hpos
  · intro x y hx hy hle
    have hsp : (reduceDepthSpikes depth colors width height).getD (y * width + x) 0
        = spikePixel depth colors width height x y := by
      unfold reduceDepthSpikes
      exact grid_getD _ width height x y hx hy
    have hsp0 : (reduceDepthSpikes depth colors width height).getD (y * width + x) 0
        = depth.getD (y * width + x) 0 := by
      rw [hsp]
      exact spikePixel_nonpos depth colors width height x y hle
    refine ⟨hsp0, ?_⟩
    have hsm : (applyEdgeAwareSmooth (reduceDepthSpikes depth colors width height)
        colors width height).getD (y * width + x) 0
        = smoothPixel (reduceDepthSpikes depth colors width height) colors
            width height x y := by
      unfold applyEdgeAwareSmooth
      exact grid_getD _ width height x y hx hy
    rw [hsm,
      (smoothPixel_result _ colors width height x y hspike_nn).1 (by rw [hsp0]; exact hle),
      hsp0]

theorem claimC4_witness :
    (reduceDepthSpikes [0] [0, 0, 0, 0] 1 1).getD 0 0 = [(0 : ℝ)].getD 0 0 ∧
    (applyEdgeAwareSmooth (reduceDepthSpikes [0] [0, 0, 0, 0] 1 1) [0, 0, 0, 0] 1 1).getD 0 0
      = [(0 : ℝ)].getD 0 0 :=
  (claimC4 [0] [0, 0, 0, 0] 1 1 (by simp)).2.2 0 0 (by norm_num) (by norm_num) (by simp)

end Geometry
